import Mathlib

/-!
Shallow embedding of `src/hw5.py` (`class QuestionnaireAnalysis`).

The pandas `DataFrame` held in `self.data` is modelled as a `List Row`.
A raw cell is `Raw`: a numeric value, a non-numeric (non-coercible) value,
or the missing marker (`NaN`).  `pd.to_numeric(..., errors="coerce")` maps
a numeric cell to itself and everything else to `NaN`; this is `Raw.toNumeric`
(producing `Option ℚ`, `none` = `NaN`) and, as an in-place rewrite of the
frame, `coerceRaw`.  Timestamps are modelled as rationals, with
`pd.to_datetime(..., errors="coerce")` behaving like `toNumeric` (`NaT` = `none`).
A raised Python exception is modelled as an `Option`-valued result (`none`).
-/

inductive Raw where
  | num (q : ℚ)
  | nonnum
  | na
deriving DecidableEq

/-- Reading `pd.to_numeric(x, errors="coerce")` as an `Option ℚ`: a numeric
cell yields its value, a non-coercible cell and `NaN` both yield `NaN` (`none`). -/
def Raw.toNumeric : Raw → Option ℚ
  | .num q => some q
  | .nonnum => none
  | .na => none

/-- Python `pd.isna` on a raw cell: only the missing marker is `NaN`
(a non-numeric string is not missing). -/
def Raw.isna : Raw → Bool
  | .na => true
  | _ => false

/-- The coercion `pd.to_numeric(x, errors="coerce")` as an in-place rewrite of a cell. -/
def coerceRaw (x : Raw) : Raw :=
  match x.toNumeric with
  | some q => .num q
  | none => .na

/-- One row of `self.data`: the columns `age`, `timestamp`, `email`, `gender`,
`q1..q5`.  `email` and `gender` are `none` when the cell is `NaN` or not a
string (the code checks `isinstance(x, str)` resp. membership in a string list). -/
structure Row where
  age : Raw
  timestamp : Raw
  email : Option String
  gender : Option String
  q1 : Raw
  q2 : Raw
  q3 : Raw
  q4 : Raw
  q5 : Raw
deriving DecidableEq

/-- The five question cells of a row, read through numeric coercion. -/
def rowQs (r : Row) : List (Option ℚ) :=
  [r.q1.toNumeric, r.q2.toNumeric, r.q3.toNumeric, r.q4.toNumeric, r.q5.toNumeric]

/-- The coercion `pd.to_numeric` applied in place to the columns `q1..q5` of a row
(lines 151-152, 199, 232 of the source). -/
def coerceQs (r : Row) : Row :=
  { r with q1 := coerceRaw r.q1, q2 := coerceRaw r.q2, q3 := coerceRaw r.q3,
           q4 := coerceRaw r.q4, q5 := coerceRaw r.q5 }

/-- The coercion `pd.to_numeric` applied in place to the `age` column (line 235). -/
def coerceAge (r : Row) : Row :=
  { r with age := coerceRaw r.age }

/-- The present (non-`NaN`) question answers of a row. -/
def presentQs (r : Row) : List ℚ :=
  (rowQs r).filterMap id

/-- Source expression `row[question_cols].isna().any()`. -/
def rowHasMissing (r : Row) : Bool :=
  (rowQs r).any Option.isNone

/-- Source expression `row[question_cols].isna().sum()`. -/
def nanCount (r : Row) : ℕ :=
  (rowQs r).countP Option.isNone

/-- Source expression `row[question_cols].mean()` with the pandas default `skipna=True`:
the mean of the present answers, `NaN` (`none`) when all five are missing. -/
def rowMean (r : Row) : Option ℚ :=
  if presentQs r = [] then none
  else some ((presentQs r).sum / ((presentQs r).length : ℚ))

/-- The mean of the present answers of a row (only meaningful when at
least one answer is present). -/
def meanQ (r : Row) : ℚ :=
  (presentQs r).sum / ((presentQs r).length : ℚ)

/-- Python `str.split(sep)` for a one-character separator, on `List Char`:
`splitOnChar c l` cuts `l` at every occurrence of `c`.  It always returns at
least one part, and `"a@b".split("@") = ["a", "b"]`, `"a@".split("@") = ["a", ""]`. -/
def splitOnChar (c : Char) : List Char → List (List Char)
  | [] => [[]]
  | x :: xs =>
    if x = c then [] :: splitOnChar c xs
    else
      match splitOnChar c xs with
      | [] => [[x]]
      | p :: ps => (x :: p) :: ps

/-- The email test of `clean_data` (line 60): the cell is a string, `'@' in x`,
and `'.' in x.split('@')[-1]` (a dot somewhere after the LAST `@`). -/
def cleanEmailOk (e : String) : Bool :=
  e.toList.contains '@' && ((splitOnChar '@' e.toList).getLastD []).contains '.'

/-- The list `valid_genders` (line 64). -/
def validGenders : List String := ["Male", "Female", "Other", "Fluid"]

/-- A row of the frame returned by `clean_data`: `age` and `timestamp` are
coerced and known numeric, `email` and `gender` are the surviving strings,
and `q1..q5` are coerced to numeric-or-missing. -/
structure CleanRow where
  age : ℚ
  timestamp : ℚ
  email : String
  gender : String
  answers : List (Option ℚ)
deriving DecidableEq

/-- The per-row effect of `clean_data` (lines 46-72): the sequence of filters
on `age` (coerced, kept iff `≥ 0` and not `NaN`), `timestamp` (coerced, kept
iff `≤ now`, `NaT` compares false), `email` (kept iff a string passing
`cleanEmailOk`), `gender` (kept iff in `validGenders`), followed by the
in-place numeric coercion of `q1..q5`.  `now` is `datetime.now()` at cleaning
time.  Each filter of the source is row-local, so the row either survives all
four (and is returned transformed) or is dropped. -/
def cleanRow (now : ℚ) (r : Row) : Option CleanRow :=
  match r.age.toNumeric with
  | none => none
  | some a =>
    if 0 ≤ a then
      match r.timestamp.toNumeric with
      | none => none
      | some t =>
        if t ≤ now then
          match r.email with
          | none => none
          | some e =>
            if cleanEmailOk e then
              match r.gender with
              | none => none
              | some g =>
                if validGenders.contains g then
                  some ⟨a, t, e, g, rowQs r⟩
                else none
            else none
        else none
    else none

/-- The method `clean_data` (lines 32-72) applied to a list of raw rows. -/
def cleanData (now : ℚ) (rows : List Row) : List CleanRow :=
  rows.filterMap (cleanRow now)

/-- The inner predicate `is_valid_email` (lines 118-125): not `NaN`, `email.split('@')` has exactly
two parts, the domain (the part after the `@`) contains a `.`, the email does
not start or end with `.`, and the domain does not start with `.`.
(`domain[0]` is only reached when `'.' in domain`, so the short-circuit of the
Python `and` is preserved by `&&`.) -/
def is_valid_email : Option String → Bool
  | none => false
  | some e =>
    let parts := splitOnChar '@' e.toList
    if parts.length ≠ 2 then false
    else
      let domain := parts.getLastD []
      domain.contains '.' && !(e.toList.head? == some '.') &&
        !(e.toList.getLast? == some '.') && !(domain.head? == some '.')

/-- The method `remove_rows_without_mail` (lines 111-129): keep exactly the rows whose
email passes `is_valid_email`; `reset_index(drop=True)` renumbers the survivors
from zero keeping their relative order, which is how a `List` works. -/
def removeRowsWithoutMail (rows : List Row) : List Row :=
  rows.filter (fun r => is_valid_email r.email)

example : cleanEmailOk "a@b@c.com" = true := by decide
example : is_valid_email (some "a@b@c.com") = false := by decide
example : is_valid_email (some "a@b.com") = true := by decide
example : is_valid_email (some "a@.com") = false := by decide
example : is_valid_email (some ".a@b.com") = false := by decide
example : is_valid_email (some "a@") = false := by decide

/-- The list `missingIdxsFrom k rows` holds `k + j` for every position `j` of a row with
at least one missing answer: this is `self.data.index[rows_with_missing]`
(line 167) for a frame whose index is the default `RangeIndex` starting at `k`. -/
def missingIdxsFrom (k : ℕ) : List Row → List ℕ
  | [] => []
  | r :: rs =>
    if rowHasMissing r then k :: missingIdxsFrom (k + 1) rs
    else missingIdxsFrom (k + 1) rs

/-- Pandas `Series.fillna(m)` applied to one question cell of a coerced row: a present
value is kept, a missing one becomes `m`; filling with `NaN` (`m = none`)
leaves the cell missing. -/
def fillCell (m : Option ℚ) (x : Raw) : Raw :=
  match x.toNumeric with
  | some v => .num v
  | none =>
    match m with
    | some q => .num q
    | none => .na

/-- Source line 164, `filled_df.loc[i, question_cols] = row[question_cols].fillna(means[i])`:
every missing answer of the row is replaced by the skip-missing mean of the
same row; the other columns are untouched. -/
def fillRow (r : Row) : Row :=
  { r with q1 := fillCell (rowMean r) r.q1, q2 := fillCell (rowMean r) r.q2,
           q3 := fillCell (rowMean r) r.q3, q4 := fillCell (rowMean r) r.q4,
           q5 := fillCell (rowMean r) r.q5 }

/-- The method `fill_na_with_mean` (lines 133-169).  Returns the triple
(shared frame `self.data` after the call, returned `filled_df`, returned `rows`):
the call first coerces `q1..q5` of `self.data` in place, then builds a copy in
which every row with a missing answer has its missing answers filled with that
mean of that same row, and returns the positions of the rows that had a missing answer. -/
def fillNaWithMean (rows : List Row) : List Row × List Row × List ℕ :=
  let coerced := rows.map coerceQs
  (coerced,
   coerced.map (fun r => if rowHasMissing r then fillRow r else r),
   missingIdxsFrom 0 coerced)

/-- The `astype("uint8")` conversion of a finite float (line 208): truncation
toward zero, then reduction modulo 256 (the numpy out-of-range wraparound). -/
def toUint8 (m : ℚ) : ℕ :=
  (((if 0 ≤ m then ⌊m⌋ else -⌊-m⌋) : ℤ) % 256).toNat

/-- The method `score_subjects` (lines 173-213).  After coercing `q1..q5` in place, the
row means (skipping `NaN`) are cast with `astype("uint8")` — pandas raises
`ValueError` ("Cannot convert non-finite values (NA or inf) to integer") if any
mean is `NaN`, i.e. if any row has all five answers missing; the raise is
modelled as `none`.  Otherwise every row gets `score = toUint8 (mean)`, and then
rows with `nan_counts > maximal_nans_per_sub` get their score overwritten with
`pd.NA`.  The result pairs each (coerced) row with its score column. -/
def scoreSubjects (maximal_nans_per_sub : ℕ) (rows : List Row) :
    Option (List (Row × Option ℕ)) :=
  let coerced := rows.map coerceQs
  if coerced.all (fun r => (rowMean r).isSome) then
    some (coerced.map (fun r =>
      (r, if maximal_nans_per_sub < nanCount r then none
          else some (toUint8 ((rowMean r).getD 0)))))
  else none

/-- The mean of one question column over a group of rows, pandas
`groupby(...).mean()` semantics: missing cells are skipped independently per
column, and a column with no present cell in the group yields `NaN`. -/
def colMean (members : List Row) (j : ℕ) : Option ℚ :=
  let vals := members.filterMap (fun r => (rowQs r).getD j none)
  if vals = [] then none
  else some (vals.sum / (vals.length : ℚ))

/-- The five per-question group means. -/
def colMeans (members : List Row) : List (Option ℚ) :=
  (List.range 5).map (colMean members)

/-- Stages 1-2 of `correlate_gender_age`: the in-place numeric coercion of
`q1..q5` (line 232) and `age` (line 235), then `dropna(subset=["age"])`
(line 238). -/
def corrCleaned (rows : List Row) : List Row :=
  (rows.map (fun r => coerceAge (coerceQs r))).filter (fun r => r.age.toNumeric.isSome)

/-- The members of the group keyed `gb` by lines 241-244: rows of the
age-cleaned frame whose key `(gender, age > 40)` equals `gb`.  Pandas
`groupby` drops `NaN` keys, so a row with a missing gender belongs to no
group, which the `== some gb.1` comparison captures. -/
def groupMembers (rows : List Row) (gb : String × Bool) : List Row :=
  (corrCleaned rows).filter (fun r =>
    (r.gender == some gb.1) && (decide (40 < r.age.toNumeric.getD 0) == gb.2))

/-- The method `correlate_gender_age` (lines 217-248), read as the table it
returns: a map from a group key `(gender, age > 40)` to the five per-question
means of that group, `none` for a key with no members (pandas `groupby` only
materialises non-empty groups). -/
def correlateGenderAge (rows : List Row) (gb : String × Bool) : Option (List (Option ℚ)) :=
  if (groupMembers rows gb).isEmpty then none
  else some (colMeans (groupMembers rows gb))

/-! Concrete rows used by witnesses and counterexamples. -/

/-- A subject with all five answers missing (and otherwise valid fields). -/
def allMissingRow : Row :=
  { age := .num 30, timestamp := .num 0, email := some "a@b.c", gender := some "Male",
    q1 := .na, q2 := .na, q3 := .na, q4 := .na, q5 := .na }

/-- A subject with answers `[10, 20, 30, 40, missing]`. -/
def rowMiss1 : Row :=
  { age := .num 30, timestamp := .num 0, email := some "a@b.c", gender := some "Male",
    q1 := .num 10, q2 := .num 20, q3 := .num 30, q4 := .num 40, q5 := .na }

/-- A subject with the full answer list `[10, 20, 30, 40, 50]`. -/
def rowFull : Row :=
  { age := .num 30, timestamp := .num 0, email := some "a@b.c", gender := some "Male",
    q1 := .num 10, q2 := .num 20, q3 := .num 30, q4 := .num 40, q5 := .num 50 }

/-- A subject with two missing answers, `[10, 20, missing, missing, 50]`. -/
def rowMiss2 : Row :=
  { age := .num 30, timestamp := .num 0, email := some "a@b.c", gender := some "Male",
    q1 := .num 10, q2 := .num 20, q3 := .na, q4 := .na, q5 := .num 50 }

/-- A raw row whose email has two `@` characters and whose other fields are valid. -/
def twoAtRow : Row :=
  { age := .num 30, timestamp := .num 0, email := some "a@b@c.com", gender := some "Male",
    q1 := .num 1, q2 := .num 2, q3 := .num 3, q4 := .num 4, q5 := .num 5 }

/-- A subject whose five answers are all 200, outside the documented 0..100 range. -/
def row200 : Row :=
  { age := .num 30, timestamp := .num 0, email := some "a@b.c", gender := some "Male",
    q1 := .num 200, q2 := .num 200, q3 := .num 200, q4 := .num 200, q5 := .num 200 }

/-- A Male subject aged 45 whose only present answer is `q1 = 80`. -/
def male45 : Row :=
  { age := .num 45, timestamp := .num 0, email := some "m@x.y", gender := some "Male",
    q1 := .num 80, q2 := .na, q3 := .na, q4 := .na, q5 := .na }

/-- A Male subject aged 20 whose only present answer is `q1 = 60`. -/
def male20 : Row :=
  { age := .num 20, timestamp := .num 0, email := some "m@x.y", gender := some "Male",
    q1 := .num 60, q2 := .na, q3 := .na, q4 := .na, q5 := .na }

/-! Helper lemmas. -/

theorem toNumeric_coerceRaw (x : Raw) : (coerceRaw x).toNumeric = x.toNumeric := by
  cases x <;> rfl

theorem isna_coerceRaw (x : Raw) (h : x.isna = true) : (coerceRaw x).isna = true := by
  cases x <;> simp_all [coerceRaw, Raw.isna, Raw.toNumeric]

theorem rowQs_coerceQs (r : Row) : rowQs (coerceQs r) = rowQs r := by
  simp [rowQs, coerceQs, toNumeric_coerceRaw]

theorem splitOnChar_ne_nil (c : Char) (l : List Char) : splitOnChar c l ≠ [] := by
  cases l with
  | nil => simp [splitOnChar]
  | cons x xs =>
    by_cases h : x = c
    · simp [splitOnChar, h]
    · cases hs : splitOnChar c xs with
      | nil => simp [splitOnChar, h, hs]
      | cons p ps => simp [splitOnChar, h, hs]

theorem splitOnChar_length (c : Char) (l : List Char) :
    (splitOnChar c l).length = l.count c + 1 := by
  induction l with
  | nil => simp [splitOnChar, List.count_nil]
  | cons x xs ih =>
    by_cases h : x = c
    · simp [splitOnChar, h, List.count_cons, ih]
    · cases hs : splitOnChar c xs with
      | nil => exact absurd hs (splitOnChar_ne_nil c xs)
      | cons p ps =>
        rw [hs] at ih
        simp only [splitOnChar, if_neg h, hs, List.length_cons, List.count_cons]
        simp only [List.length_cons] at ih
        have hbe : (x == c) = false := by simp [h]
        simp [hbe]
        omega

/-- The email-validity predicate in the words of the specification (§4.2):
exactly one `@` (stated as a character count), a domain — the part after the
`@` — containing a `.`, no leading or trailing `.` in the email, and a domain
not starting with `.`. -/
def specMailValid (e : String) : Bool :=
  (e.toList.count '@' == 1) &&
    (((splitOnChar '@' e.toList).getLastD []).contains '.' &&
      (!(e.toList.head? == some '.') &&
        (!(e.toList.getLast? == some '.') &&
          !(((splitOnChar '@' e.toList).getLastD []).head? == some '.'))))

/-- The specification predicate lifted to a possibly missing email cell. -/
def specMailRowOk : Option String → Bool
  | none => false
  | some e => specMailValid e

theorem is_valid_email_eq_spec (o : Option String) :
    is_valid_email o = specMailRowOk o := by
  cases o with
  | none => rfl
  | some e =>
    have hl := splitOnChar_length '@' e.toList
    simp only [String.toList] at hl
    simp only [is_valid_email, specMailRowOk, specMailValid, String.toList]
    by_cases h : (splitOnChar '@' e.data).length = 2
    · have hc : List.count '@' e.data = 1 := by omega
      simp [h, hc, Bool.and_assoc]
    · have hc : List.count '@' e.data ≠ 1 := by omega
      simp [h, hc]

/-- C6: a row survives `remove_rows_without_mail` exactly when its email has
exactly one `@`, the domain after the `@` contains a `.`, the email neither
starts nor ends with `.`, and the domain does not start with `.`; the result
is the sublist of survivors in input order, renumbered from zero (list
positions). -/
theorem removeRows_keeps_exactly_spec_valid (rows : List Row) :
    removeRowsWithoutMail rows = rows.filter (fun r => specMailRowOk r.email) := by
  unfold removeRowsWithoutMail
  simp only [is_valid_email_eq_spec]

/-- C7: the email filter is idempotent — filtering an already-filtered dataset
returns it unchanged. -/
theorem removeRows_idempotent (rows : List Row) :
    removeRowsWithoutMail (removeRowsWithoutMail rows) = removeRowsWithoutMail rows := by
  unfold removeRowsWithoutMail
  rw [List.filter_filter]
  simp

/-- C1: `score_subjects` does raise on a subject with all five answers missing.
With the default threshold 1, a dataset holding one subject whose `q1..q5` are
all `NaN` makes `score.astype("uint8")` (line 208) raise `ValueError`
("Cannot convert non-finite values (NA or inf) to integer"): the row mean is
`NaN` and the cast happens before the `nan_counts` mask of line 211.  The
modelled call returns the raised-exception marker instead of a scored frame,
contradicting both the claim and the docstring of the method ("the score
should be NA"). -/
theorem scoreSubjects_raises_on_all_missing :
    scoreSubjects 1 [allMissingRow] = none := by decide

/-- C3 counterexample: `clean_data` keeps a row whose email has two `@`
characters, because line 60 only tests `'@' in x` (at least one `@`), not
exactly one.  The claimed invariant (exactly one `@`, with a dot in the part
after it) is false of the kept row. -/
theorem cleanData_keeps_email_with_two_ats :
    (cleanData 100 [twoAtRow]).map CleanRow.email = ["a@b@c.com"] ∧
    ((("a@b@c.com" : String).toList.count '@' == 1) &&
        ((splitOnChar '@' ("a@b@c.com" : String).toList).getLastD []).contains '.') = false := by
  decide

/-- C4 counterexample: on a dataset whose only row has all five answers
missing, `fill_na_with_mean` returns that row unchanged (nothing is imputed —
every answer is still missing) and yet reports index 0 in the returned array,
because line 167 lists every row with any missing answer, not the rows that
received a value. -/
theorem fillNa_lists_row_with_nothing_filled :
    (fillNaWithMean [allMissingRow]).2.2 = [0] ∧
    (fillNaWithMean [allMissingRow]).2.1 = [allMissingRow] ∧
    rowQs allMissingRow = [none, none, none, none, none] := by decide

/-- C9 counterexample: a subject whose five answers are all 200 (outside the
0..100 answer range) gets the score 200 — the mean is truncated and wrapped by
`astype("uint8")`, never clamped to `[0, 100]`, so the assigned score is not in
`[0, 100]`. -/
theorem scoreSubjects_not_clamped :
    scoreSubjects 1 [row200] = some [(row200, some 200)] ∧ ¬ (200 ≤ 100) := by
  have h1 : coerceQs row200 = row200 := by decide
  have h2 : presentQs row200 = [200, 200, 200, 200, 200] := by decide
  have h3 : rowMean row200 = some 200 := by
    rw [rowMean, h2]
    rw [if_neg (by simp)]
    norm_num
  have h4 : toUint8 200 = 200 := by
    rw [toUint8]
    norm_num
    decide
  refine ⟨?_, by omega⟩
  simp only [scoreSubjects, List.map_cons, List.map_nil, h1, List.all_cons, List.all_nil, h3,
    Option.isSome_some, Bool.and_true, if_true]
  simp [nanCount, h4, row200, rowQs, Raw.toNumeric]

/-- The four per-field conditions of `clean_data` that decide whether a row
survives.  Note the predicate never reads `q1..q5`: non-numeric answers cannot
cause a drop. -/
def fieldChecks (now : ℚ) (r : Row) : Bool :=
  (match r.age.toNumeric with | some a => decide (0 ≤ a) | none => false) &&
    ((match r.timestamp.toNumeric with | some t => decide (t ≤ now) | none => false) &&
      ((match r.email with | some e => cleanEmailOk e | none => false) &&
        (match r.gender with | some g => validGenders.contains g | none => false)))

theorem cleanRow_isSome_eq_fieldChecks (now : ℚ) (r : Row) :
    (cleanRow now r).isSome = fieldChecks now r := by
  unfold cleanRow fieldChecks
  cases r.age.toNumeric <;> cases r.timestamp.toNumeric <;>
    cases r.email <;> cases r.gender <;>
      simp only [Option.isSome_none, Bool.false_and, Bool.and_false] <;>
        split_ifs <;> simp_all

theorem cleanRow_eq_some_props (now : ℚ) (r : Row) (c : CleanRow)
    (h : cleanRow now r = some c) :
    0 ≤ c.age ∧ c.timestamp ≤ now ∧ validGenders.contains c.gender = true ∧
      cleanEmailOk c.email = true := by
  unfold cleanRow at h
  cases hA : r.age.toNumeric with
  | none => rw [hA] at h; exact absurd h (by simp)
  | some a =>
    rw [hA] at h
    dsimp only at h
    by_cases h1 : 0 ≤ a
    · rw [if_pos h1] at h
      cases hT : r.timestamp.toNumeric with
      | none => rw [hT] at h; exact absurd h (by simp)
      | some t =>
        rw [hT] at h
        dsimp only at h
        by_cases h2 : t ≤ now
        · rw [if_pos h2] at h
          cases hE : r.email with
          | none => rw [hE] at h; exact absurd h (by simp)
          | some e =>
            rw [hE] at h
            dsimp only at h
            by_cases h3 : cleanEmailOk e = true
            · rw [if_pos h3] at h
              cases hG : r.gender with
              | none => rw [hG] at h; exact absurd h (by simp)
              | some g =>
                rw [hG] at h
                dsimp only at h
                by_cases h4 : validGenders.contains g = true
                · rw [if_pos h4] at h
                  cases h
                  exact ⟨h1, h2, h4, h3⟩
                · rw [if_neg h4] at h; exact absurd h (by simp)
            · rw [if_neg h3] at h; exact absurd h (by simp)
        · rw [if_neg h2] at h; exact absurd h (by simp)
    · rw [if_neg h1] at h; exact absurd h (by simp)

/-- C3 (amended): every row returned by `clean_data` has numeric age `≥ 0`,
timestamp not later than the cleaning moment, gender in
{Male, Female, Other, Fluid}, and an email that is a string containing at
least one `@` whose part after the last `@` contains a `.` (the code checks
`'@' in x`, not that the `@` is unique); and a row survives exactly when the
four field checks pass, so non-numeric `q1..q5` never cause a drop. -/
theorem cleanData_row_invariants (now : ℚ) (rows : List Row) :
    ((cleanData now rows).all (fun c =>
        decide (0 ≤ c.age) && (decide (c.timestamp ≤ now) &&
          (validGenders.contains c.gender && cleanEmailOk c.email))) = true)
    ∧ ∀ r : Row, (cleanRow now r).isSome = fieldChecks now r := by
  constructor
  · rw [List.all_eq_true]
    intro c hc
    rw [cleanData, List.mem_filterMap] at hc
    obtain ⟨r, _, hr⟩ := hc
    obtain ⟨h1, h2, h3, h4⟩ := cleanRow_eq_some_props now r c hr
    have h3m : c.gender ∈ validGenders := by simpa using h3
    simp [h1, h2, h3m, h4]
  · exact fun r => cleanRow_isSome_eq_fieldChecks now r

/-- Positions listed by `missingIdxsFrom k l`: exactly `k + j` for the
positions `j` of rows with at least one missing answer. -/
theorem mem_missingIdxsFrom (l : List Row) :
    ∀ k i, i ∈ missingIdxsFrom k l ↔
      ∃ j row, l[j]? = some row ∧ rowHasMissing row = true ∧ i = k + j := by
  induction l with
  | nil => intro k i; simp [missingIdxsFrom]
  | cons r rs ih =>
    intro k i
    by_cases hr : rowHasMissing r
    · rw [missingIdxsFrom, if_pos hr, List.mem_cons]
      constructor
      · rintro (rfl | hmem)
        · exact ⟨0, r, by simp, hr, by omega⟩
        · obtain ⟨j, row, hj, hm, hij⟩ := (ih (k + 1) i).mp hmem
          exact ⟨j + 1, row, by simpa using hj, hm, by omega⟩
      · rintro ⟨j, row, hj, hm, hij⟩
        cases j with
        | zero => left; omega
        | succ j =>
          right
          exact (ih (k + 1) i).mpr ⟨j, row, by simpa using hj, hm, by omega⟩
    · rw [missingIdxsFrom, if_neg hr, ih (k + 1) i]
      constructor
      · rintro ⟨j, row, hj, hm, hij⟩
        exact ⟨j + 1, row, by simpa using hj, hm, by omega⟩
      · rintro ⟨j, row, hj, hm, hij⟩
        cases j with
        | zero =>
          simp only [List.getElem?_cons_zero, Option.some.injEq] at hj
          exact absurd (hj ▸ hm) (by simpa using hr)
        | succ j => exact ⟨j, row, by simpa using hj, hm, by omega⟩

/-- C4 (amended): the returned index array lists exactly the positions of the
rows that have at least one missing answer after numeric coercion — including
a row with all five answers missing, even though no value is imputed there
(the original claim wrongly excluded such rows; see the counterexample). -/
theorem fillNa_index_iff (rows : List Row) (i : ℕ) :
    i ∈ (fillNaWithMean rows).2.2 ↔
      ∃ row, rows[i]? = some row ∧ rowHasMissing (coerceQs row) = true := by
  show i ∈ missingIdxsFrom 0 (rows.map coerceQs) ↔ _
  rw [mem_missingIdxsFrom]
  constructor
  · rintro ⟨j, row, hj, hm, hij⟩
    have hji : i = j := by omega
    subst hji
    rw [List.getElem?_map] at hj
    obtain ⟨row0, hrow0, hco⟩ := Option.map_eq_some'.mp hj
    exact ⟨row0, hrow0, hco ▸ hm⟩
  · rintro ⟨row, hrow, hm⟩
    exact ⟨i, coerceQs row, by rw [List.getElem?_map, hrow]; rfl, hm, by omega⟩

theorem fillNa_index_iff_witness :
    0 ∈ (fillNaWithMean [rowMiss1]).2.2 :=
  (fillNa_index_iff [rowMiss1] 0).mpr ⟨rowMiss1, by simp, by decide⟩

theorem fillCell_toNumeric (m : Option ℚ) (x : Raw) :
    (fillCell m x).toNumeric = x.toNumeric.or m := by
  cases x <;> cases m <;> rfl

theorem opt_or_some (x : Option ℚ) (m : ℚ) : x.or (some m) = some (x.getD m) := by
  cases x <;> rfl

/-- The subject used by the imputation witness: `rowMiss1` after filling its
one missing answer with the mean 25 of `[10, 20, 30, 40]`. -/
def rowMiss1Filled : Row :=
  { rowMiss1 with q5 := .num 25 }

/-- C5: `fill_na_with_mean` leaves a row with no missing answers unchanged,
and in a row with `k` missing answers (`0 < k < 5`) it replaces exactly the
missing cells, each with the mean of the same row's `5 - k` present answers,
keeping every present answer and every non-question column.  The hypothesis
`coerceQs row = row` says the row's answers are already in canonical
numeric-or-missing form (the data model of the spec), so the in-place
`pd.to_numeric` is the identity on it. -/
theorem fillNa_row_effect (rows : List Row) (i : ℕ) (row f : Row)
    (hr : rows[i]? = some row) (hcan : coerceQs row = row)
    (hf : (fillNaWithMean rows).2.1[i]? = some f) :
    (rowHasMissing row = false → f = row) ∧
    (rowHasMissing row = true → presentQs row ≠ [] →
      (rowQs f = (rowQs row).map (fun x => some (x.getD (meanQ row))) ∧
       f.age = row.age ∧ f.timestamp = row.timestamp ∧
       f.email = row.email ∧ f.gender = row.gender)) := by
  have hfl : (fillNaWithMean rows).2.1[i]? =
      some (if rowHasMissing row then fillRow row else row) := by
    show ((rows.map coerceQs).map _)[i]? = _
    rw [List.getElem?_map, List.getElem?_map, hr]
    simp [hcan]
  rw [hf] at hfl
  have hfeq := Option.some.inj hfl
  constructor
  · intro hm
    rw [hfeq, if_neg (by simp [hm])]
  · intro hm hp
    rw [hfeq, if_pos hm]
    have hmean : rowMean row = some (meanQ row) := by
      rw [rowMean, if_neg hp]; rfl
    refine ⟨?_, rfl, rfl, rfl, rfl⟩
    show rowQs (fillRow row) = _
    simp only [rowQs, fillRow, fillCell_toNumeric, hmean, opt_or_some, List.map_cons,
      List.map_nil]

theorem fillNa_row_effect_witness :
    (rowHasMissing rowMiss1 = false → rowMiss1Filled = rowMiss1) ∧
    (rowHasMissing rowMiss1 = true → presentQs rowMiss1 ≠ [] →
      (rowQs rowMiss1Filled =
         (rowQs rowMiss1).map (fun x => some (x.getD (meanQ rowMiss1))) ∧
       rowMiss1Filled.age = rowMiss1.age ∧
       rowMiss1Filled.timestamp = rowMiss1.timestamp ∧
       rowMiss1Filled.email = rowMiss1.email ∧
       rowMiss1Filled.gender = rowMiss1.gender)) := by
  have hp4 : presentQs rowMiss1 = [10, 20, 30, 40] := by decide
  have hmean : rowMean rowMiss1 = some 25 := by
    rw [rowMean, hp4, if_neg (by simp)]
    norm_num [List.sum_cons, List.sum_nil]
  have hfill : fillRow rowMiss1 = rowMiss1Filled := by
    rw [fillRow, hmean]
    decide
  have hf : (fillNaWithMean [rowMiss1]).2.1[0]? = some rowMiss1Filled := by
    have hco : coerceQs rowMiss1 = rowMiss1 := by decide
    have h21 : (fillNaWithMean [rowMiss1]).2.1 = [fillRow rowMiss1] := by
      show ([rowMiss1].map coerceQs).map _ = _
      simp only [List.map_cons, List.map_nil, hco]
      rw [if_pos (show rowHasMissing rowMiss1 = true by decide)]
    rw [h21, hfill]
    simp
  exact fillNa_row_effect [rowMiss1] 0 rowMiss1 rowMiss1Filled (by simp) (by decide) hf

/-- C10: the only in-place effect of `fill_na_with_mean` on the shared frame
`self.data` is the numeric coercion of `q1..q5`; the imputed means live only
in the returned copy, so every answer missing in the shared frame before the
call is still missing in the shared frame after it. -/
theorem fillNa_shared_only_coerced (rows : List Row) (i : ℕ) (row row' : Row)
    (hr : rows[i]? = some row) (hr' : (fillNaWithMean rows).1[i]? = some row') :
    (fillNaWithMean rows).1 = rows.map coerceQs ∧
    row' = coerceQs row ∧
    ((row.q1.isna = true → row'.q1.isna = true) ∧
     (row.q2.isna = true → row'.q2.isna = true) ∧
     (row.q3.isna = true → row'.q3.isna = true) ∧
     (row.q4.isna = true → row'.q4.isna = true) ∧
     (row.q5.isna = true → row'.q5.isna = true)) := by
  have h1 : (fillNaWithMean rows).1 = rows.map coerceQs := rfl
  have h2 : row' = coerceQs row := by
    rw [h1, List.getElem?_map, hr] at hr'
    exact (Option.some.inj hr').symm
  refine ⟨h1, h2, ?_, ?_, ?_, ?_, ?_⟩ <;> intro hna <;> rw [h2] <;>
    exact isna_coerceRaw _ hna

theorem fillNa_shared_only_coerced_witness :
    (fillNaWithMean [allMissingRow]).1 = [allMissingRow].map coerceQs ∧
    allMissingRow = coerceQs allMissingRow ∧
    ((allMissingRow.q1.isna = true → allMissingRow.q1.isna = true) ∧
     (allMissingRow.q2.isna = true → allMissingRow.q2.isna = true) ∧
     (allMissingRow.q3.isna = true → allMissingRow.q3.isna = true) ∧
     (allMissingRow.q4.isna = true → allMissingRow.q4.isna = true) ∧
     (allMissingRow.q5.isna = true → allMissingRow.q5.isna = true)) :=
  fillNa_shared_only_coerced [allMissingRow] 0 allMissingRow allMissingRow
    (by simp) (by decide)

theorem mean_nonneg_le_100 (l : List ℚ) (hne : l ≠ [])
    (h : ∀ x ∈ l, 0 ≤ x ∧ x ≤ 100) :
    0 ≤ l.sum / (l.length : ℚ) ∧ l.sum / (l.length : ℚ) ≤ 100 := by
  have hlen : 0 < (l.length : ℚ) := by
    have := List.length_pos.mpr hne
    exact_mod_cast this
  constructor
  · exact div_nonneg (List.sum_nonneg fun x hx => (h x hx).1) (le_of_lt hlen)
  · rw [div_le_iff₀ hlen]
    have hs := List.sum_le_card_nsmul l 100 fun x hx => (h x hx).2
    rw [nsmul_eq_mul] at hs
    linarith

theorem toUint8_eq_floor (m : ℚ) (h0 : 0 ≤ m) (h1 : m ≤ 100) :
    toUint8 m = Int.toNat ⌊m⌋ := by
  rw [toUint8, if_pos h0]
  have hf0 : 0 ≤ ⌊m⌋ := Int.floor_nonneg.mpr h0
  have hf1 : ⌊m⌋ ≤ 100 := by
    have h100 : ⌊m⌋ ≤ ⌊(100 : ℚ)⌋ := Int.floor_le_floor h1
    simpa using h100
  rw [Int.emod_eq_of_lt hf0 (by omega)]

theorem mem_of_getElemSome {α : Type} {l : List α} {i : ℕ} {a : α}
    (h : l[i]? = some a) : a ∈ l := by
  obtain ⟨hlt, heq⟩ := List.getElem?_eq_some.mp h
  exact heq ▸ List.getElem_mem hlt

theorem scoreSubjects_ok_elim (thr : ℕ) (rows : List Row) (out : List (Row × Option ℕ))
    (hok : scoreSubjects thr rows = some out) :
    out = (rows.map coerceQs).map (fun r =>
      (r, if thr < nanCount r then none else some (toUint8 ((rowMean r).getD 0)))) ∧
    ∀ r ∈ rows.map coerceQs, (rowMean r).isSome = true := by
  unfold scoreSubjects at hok
  dsimp only at hok
  split at hok
  case isTrue hall =>
    refine ⟨(Option.some.inj hok).symm, ?_⟩
    rw [List.all_eq_true] at hall
    exact hall
  case isFalse => exact absurd hok (by simp)

theorem presentQs_ne_nil_of_isSome (r : Row) (h : (rowMean r).isSome = true) :
    presentQs r ≠ [] := by
  intro hc
  rw [rowMean, if_pos hc] at h
  simp at h

theorem rowMean_eq_meanQ (r : Row) (h : presentQs r ≠ []) :
    rowMean r = some (meanQ r) := by
  rw [rowMean, if_neg h]; rfl

/-- C2: whenever the call completes, a subject with at most
`maximal_nans_per_sub` missing answers gets `score = floor(mean of the
non-missing answers)`, and the cutoff is strict: the score is the `NA` marker
exactly when the missing count strictly exceeds the threshold.  The answer
values are assumed in the 0..100 range of the data model (outside it the floor
is still taken but wrapped, see C9). -/
theorem scoreSubjects_score_spec (thr : ℕ) (rows : List Row)
    (out : List (Row × Option ℕ)) (hok : scoreSubjects thr rows = some out)
    (i : ℕ) (row : Row) (p : Row × Option ℕ)
    (hrow : rows[i]? = some row) (hp : out[i]? = some p)
    (hrange : ∀ q ∈ presentQs (coerceQs row), 0 ≤ q ∧ q ≤ 100) :
    (p.2 = if thr < nanCount (coerceQs row) then none
           else some (Int.toNat ⌊meanQ (coerceQs row)⌋)) ∧
    (p.2 = none ↔ thr < nanCount (coerceQs row)) := by
  obtain ⟨hout, hall⟩ := scoreSubjects_ok_elim thr rows out hok
  have hrm : row ∈ rows := mem_of_getElemSome hrow
  have hsome : (rowMean (coerceQs row)).isSome = true :=
    hall _ (List.mem_map_of_mem coerceQs hrm)
  have hpne : presentQs (coerceQs row) ≠ [] := presentQs_ne_nil_of_isSome _ hsome
  have hmean : rowMean (coerceQs row) = some (meanQ (coerceQs row)) :=
    rowMean_eq_meanQ _ hpne
  have hpeq : p = (coerceQs row, if thr < nanCount (coerceQs row) then none
      else some (toUint8 ((rowMean (coerceQs row)).getD 0))) := by
    rw [hout, List.getElem?_map, List.getElem?_map, hrow] at hp
    exact (Option.some.inj hp).symm
  have hb := mean_nonneg_le_100 (presentQs (coerceQs row)) hpne hrange
  have hU : toUint8 ((rowMean (coerceQs row)).getD 0) = Int.toNat ⌊meanQ (coerceQs row)⌋ := by
    rw [hmean, Option.getD_some]
    exact toUint8_eq_floor _ hb.1 hb.2
  constructor
  · rw [hpeq]
    dsimp only
    rw [hU]
  · rw [hpeq]
    dsimp only
    split_ifs with hcond <;> simp [hcond]

/-- Concrete evaluation shared by the scorer witnesses: a subject with answers
`[10, 20, 30, 40, missing]` and threshold 1 is scored `floor(100 / 4) = 25`. -/
theorem scoreSubjects_rowMiss1_eval :
    scoreSubjects 1 [rowMiss1] = some [(rowMiss1, some 25)] := by
  have hco : coerceQs rowMiss1 = rowMiss1 := by decide
  have hp4 : presentQs rowMiss1 = [10, 20, 30, 40] := by decide
  have hmean : rowMean rowMiss1 = some 25 := by
    rw [rowMean, hp4, if_neg (by simp)]
    norm_num [List.sum_cons, List.sum_nil]
  have h25 : toUint8 25 = 25 := by
    rw [toUint8]
    norm_num
    decide
  unfold scoreSubjects
  dsimp only
  simp only [List.map_cons, List.map_nil, hco, List.all_cons, List.all_nil, hmean,
    Option.isSome_some, Bool.and_true, if_true]
  rw [if_neg (by decide)]
  simp only [Option.getD_some, h25]

/-- Concrete evaluation behind the scorer examples of the claim: with
threshold 1 the answers `[10, 20, 30, 40, 50]` score 30, `[10, 20, 30, 40, NaN]`
score 25, and a subject with two missing answers gets the `NA` marker. -/
theorem scoreSubjects_examples_eval :
    scoreSubjects 1 [rowFull, rowMiss1, rowMiss2] =
      some [(rowFull, some 30), (rowMiss1, some 25), (rowMiss2, none)] := by
  have hcoF : coerceQs rowFull = rowFull := by decide
  have hco1 : coerceQs rowMiss1 = rowMiss1 := by decide
  have hco2 : coerceQs rowMiss2 = rowMiss2 := by decide
  have hpF : presentQs rowFull = [10, 20, 30, 40, 50] := by decide
  have hp1 : presentQs rowMiss1 = [10, 20, 30, 40] := by decide
  have hp2 : presentQs rowMiss2 = [10, 20, 50] := by decide
  have hmF : rowMean rowFull = some 30 := by
    rw [rowMean, hpF, if_neg (by simp)]
    norm_num [List.sum_cons, List.sum_nil]
  have hm1 : rowMean rowMiss1 = some 25 := by
    rw [rowMean, hp1, if_neg (by simp)]
    norm_num [List.sum_cons, List.sum_nil]
  have hm2s : (rowMean rowMiss2).isSome = true := by
    rw [rowMean, hp2, if_neg (by simp)]
    simp
  have h30 : toUint8 30 = 30 := by
    rw [toUint8]
    norm_num
    decide
  have h25 : toUint8 25 = 25 := by
    rw [toUint8]
    norm_num
    decide
  unfold scoreSubjects
  dsimp only
  simp only [List.map_cons, List.map_nil, hcoF, hco1, hco2, List.all_cons, List.all_nil,
    hmF, hm1, hm2s, Option.isSome_some, Bool.and_true, Bool.true_and, if_true]
  rw [if_neg (by decide), if_neg (by decide), if_pos (by decide)]
  simp only [Option.getD_some, h30, h25]

theorem scoreSubjects_score_spec_witness :
    (((rowFull, some 30) : Row × Option ℕ).2 =
       if 1 < nanCount (coerceQs rowFull) then none
       else some (Int.toNat ⌊meanQ (coerceQs rowFull)⌋)) ∧
    (((rowMiss1, some 25) : Row × Option ℕ).2 =
       if 1 < nanCount (coerceQs rowMiss1) then none
       else some (Int.toNat ⌊meanQ (coerceQs rowMiss1)⌋)) ∧
    (((rowMiss2, (none : Option ℕ)) : Row × Option ℕ).2 = none ↔
       1 < nanCount (coerceQs rowMiss2)) :=
  ⟨(scoreSubjects_score_spec 1 [rowFull, rowMiss1, rowMiss2]
      [(rowFull, some 30), (rowMiss1, some 25), (rowMiss2, none)]
      scoreSubjects_examples_eval 0 rowFull (rowFull, some 30)
      (by simp) (by simp) (by decide)).1,
   (scoreSubjects_score_spec 1 [rowFull, rowMiss1, rowMiss2]
      [(rowFull, some 30), (rowMiss1, some 25), (rowMiss2, none)]
      scoreSubjects_examples_eval 1 rowMiss1 (rowMiss1, some 25)
      (by simp) (by simp) (by decide)).1,
   (scoreSubjects_score_spec 1 [rowFull, rowMiss1, rowMiss2]
      [(rowFull, some 30), (rowMiss1, some 25), (rowMiss2, none)]
      scoreSubjects_examples_eval 2 rowMiss2 (rowMiss2, none)
      (by simp) (by simp) (by decide)).2⟩

/-- C9 (amended): when every (present, coerced) answer lies in the 0..100
range of the data model, every assigned score is `floor(mean)` and lies in
`[0, 100]` — but the code reaches this by `astype("uint8")` (truncate, then
wrap modulo 256), not by a clamp, so for answers outside 0..100 the assigned
score can leave `[0, 100]` (see the counterexample). -/
theorem scoreSubjects_range (thr : ℕ) (rows : List Row) (out : List (Row × Option ℕ))
    (hok : scoreSubjects thr rows = some out)
    (hrange : ∀ row ∈ rows, ∀ q ∈ presentQs (coerceQs row), 0 ≤ q ∧ q ≤ 100)
    (p : Row × Option ℕ) (hp : p ∈ out) (s : ℕ) (hs : p.2 = some s) :
    s = Int.toNat ⌊meanQ p.1⌋ ∧ s ≤ 100 := by
  obtain ⟨hout, hall⟩ := scoreSubjects_ok_elim thr rows out hok
  rw [hout, List.mem_map] at hp
  obtain ⟨r, hrmem, hpeq⟩ := hp
  rw [List.mem_map] at hrmem
  obtain ⟨row0, hrow0, rfl⟩ := hrmem
  subst hpeq
  have hq := hrange row0 hrow0
  have hsome : (rowMean (coerceQs row0)).isSome = true :=
    hall _ (List.mem_map_of_mem coerceQs hrow0)
  have hpne : presentQs (coerceQs row0) ≠ [] := presentQs_ne_nil_of_isSome _ hsome
  have hmean : rowMean (coerceQs row0) = some (meanQ (coerceQs row0)) :=
    rowMean_eq_meanQ _ hpne
  have hb := mean_nonneg_le_100 (presentQs (coerceQs row0)) hpne hq
  dsimp only at hs
  split_ifs at hs with hcond
  have hsval := Option.some.inj hs
  have hb2 : 0 ≤ meanQ (coerceQs row0) ∧ meanQ (coerceQs row0) ≤ 100 := hb
  rw [hmean, Option.getD_some, toUint8_eq_floor _ hb2.1 hb2.2] at hsval
  have hf0 : 0 ≤ ⌊meanQ (coerceQs row0)⌋ := Int.floor_nonneg.mpr hb2.1
  have hf1 : ⌊meanQ (coerceQs row0)⌋ ≤ 100 := by
    have h100 : ⌊meanQ (coerceQs row0)⌋ ≤ ⌊(100 : ℚ)⌋ := Int.floor_le_floor hb2.2
    simpa using h100
  show s = Int.toNat ⌊meanQ (coerceQs row0)⌋ ∧ s ≤ 100
  exact ⟨hsval.symm, by omega⟩

theorem scoreSubjects_range_witness :
    (25 : ℕ) = Int.toNat ⌊meanQ ((rowMiss1, some 25) : Row × Option ℕ).1⌋ ∧
      (25 : ℕ) ≤ 100 :=
  scoreSubjects_range 1 [rowMiss1] [(rowMiss1, some 25)]
    scoreSubjects_rowMiss1_eval (by decide) (rowMiss1, some 25) (by simp) 25 rfl

/-- Group membership in the words of the claim, on an original (uncoerced)
row: the age is present after numeric coercion (rows with missing age are
excluded entirely), the gender equals `g`, and the subject's side of the
`age > 40` split is `b`. -/
def inGroupB (g : String) (b : Bool) (r : Row) : Bool :=
  r.age.toNumeric.isSome &&
    ((r.gender == some g) && (decide (40 < r.age.toNumeric.getD 0) == b))

/-- The in-place coercions done by `correlate_gender_age` on a row. -/
def coerceAll (r : Row) : Row := coerceAge (coerceQs r)

theorem age_toNumeric_coerceAll (r : Row) :
    (coerceAll r).age.toNumeric = r.age.toNumeric := by
  simp [coerceAll, coerceAge, coerceQs, toNumeric_coerceRaw]

theorem gender_coerceAll (r : Row) : (coerceAll r).gender = r.gender := rfl

theorem isEmpty_map_list {α β : Type} (f : α → β) (l : List α) :
    (l.map f).isEmpty = l.isEmpty := by
  cases l <;> rfl

theorem groupMembers_eq (rows : List Row) (g : String) (b : Bool) :
    groupMembers rows (g, b) = (rows.filter (inGroupB g b)).map coerceAll := by
  unfold groupMembers corrCleaned
  rw [List.filter_filter, List.filter_map]
  congr 1
  congr 1
  funext r
  show (((coerceAll r).gender == some g) &&
        (decide (40 < (coerceAll r).age.toNumeric.getD 0) == b) &&
      (coerceAll r).age.toNumeric.isSome) = inGroupB g b r
  rw [age_toNumeric_coerceAll, gender_coerceAll, inGroupB]
  cases r.age.toNumeric.isSome <;> cases (r.gender == some g) <;>
    cases (decide (40 < r.age.toNumeric.getD 0) == b) <;> rfl

theorem colMean_singleton (r : Row) (j : ℕ) :
    colMean [r] j = (rowQs r).getD j none := by
  simp only [colMean]
  have hfm : List.filterMap (fun x => (rowQs x).getD j none) [r] =
      ((rowQs r).getD j none).toList := by
    cases h : (rowQs r).getD j none with
    | none =>
      rw [List.getD_eq_getElem?_getD] at h
      simp [h]
    | some v =>
      rw [List.getD_eq_getElem?_getD] at h
      simp [h]
  rw [hfm]
  cases h : (rowQs r).getD j none with
  | none => simp
  | some v => simp

theorem colMeans_singleton (r : Row) : colMeans [r] = rowQs r := by
  rw [colMeans]
  have h5 : List.range 5 = [0, 1, 2, 3, 4] := rfl
  rw [h5]
  simp only [List.map_cons, List.map_nil, colMean_singleton]
  rfl

/-- C8: `correlate_gender_age` excludes the rows with missing age, groups the
rest by the pair `(gender, age > 40)`, and maps every non-empty group — and
only those — to the per-question skip-missing means over exactly that group's
rows; in particular a Male aged 45 with `q1 = 80` and a Male aged 20 with
`q1 = 60` land in two distinct groups whose `q1` means are 80 and 60, never
merged. -/
theorem correlate_group_table :
    (∀ (rows : List Row) (g : String) (b : Bool),
      correlateGenderAge rows (g, b) =
        if (rows.filter (inGroupB g b)).isEmpty then none
        else some (colMeans ((rows.filter (inGroupB g b)).map coerceAll))) ∧
    correlateGenderAge [male45, male20] ("Male", true) =
      some [some 80, none, none, none, none] ∧
    correlateGenderAge [male45, male20] ("Male", false) =
      some [some 60, none, none, none, none] := by
  have hmain : ∀ (rows : List Row) (g : String) (b : Bool),
      correlateGenderAge rows (g, b) =
        if (rows.filter (inGroupB g b)).isEmpty then none
        else some (colMeans ((rows.filter (inGroupB g b)).map coerceAll)) := by
    intro rows g b
    rw [correlateGenderAge, groupMembers_eq, isEmpty_map_list]
  refine ⟨hmain, ?_, ?_⟩
  · have hg : groupMembers [male45, male20] ("Male", true) = [coerceAll male45] := by decide
    rw [correlateGenderAge, hg, if_neg (by decide), colMeans_singleton]
    decide
  · have hg : groupMembers [male45, male20] ("Male", false) = [coerceAll male20] := by decide
    rw [correlateGenderAge, hg, if_neg (by decide), colMeans_singleton]
    decide
